import Mathlib

/-!
Verification of the event reconciliation and identity-derivation engine of
the `bustabook-college` repository (scripts/print_event_prompts.py and
scripts/scaffold_games_from_my_events.py), as a shallow embedding in Lean.

Strings are modelled as `List Char` internally (ASCII scope), with `String`
wrappers at the API boundary.  Python regular-expression transforms are
embedded as directly as possible; comments point at the source lines.
-/

namespace BustaBook

/-! ### Character-level helpers -/

/-- ASCII lowercase letter or digit: the character class `[a-z0-9]` used by
`slugify` and `norm` (Python `re` character classes are ASCII here). -/
def isLowerAlnum (c : Char) : Bool :=
  (97 ≤ c.toNat && c.toNat ≤ 122) || (48 ≤ c.toNat && c.toNat ≤ 57)

/-- A character allowed in a normalizer output: `[a-z0-9-]`. -/
def okChar (c : Char) : Bool := isLowerAlnum c || c = '-'

/-- Python `str.lower()` restricted to ASCII: uppercase A–Z maps to a–z. -/
def pyLower (c : Char) : Char :=
  if 65 ≤ c.toNat && c.toNat ≤ 90 then Char.ofNat (c.toNat + 32) else c

/-- Python `str.strip()` whitespace set (ASCII portion). -/
def isPySpace (c : Char) : Bool :=
  c = ' ' || c = '\t' || c = '\n' || c = '\r' || c = '\x0b' || c = '\x0c'

/-! ### The normalizer pipeline (`slugify`, local `norm`)

`print_event_prompts.py` lines 34–42 (`slugify`) and line 185–186 (`norm`);
`scaffold_games_from_my_events.py` lines 16–24 and 62–63 are identical. -/

/-- Scan for the closing parenthesis of a `\(.*?\)` match: the first `)`,
with no newline in between (Python `.` does not match a newline).
Returns the remainder after the `)`. -/
def findClose : List Char → Option (List Char)
  | [] => none
  | c :: r => if c = ')' then some r else if c = '\n' then none else findClose r

theorem findClose_length :
    ∀ (l rest : List Char), findClose l = some rest → rest.length ≤ l.length := by
  intro l
  induction l with
  | nil => intro rest h; simp [findClose] at h
  | cons c r ih =>
    intro rest h
    simp only [findClose] at h
    split at h
    · cases h; simp
    · split at h
      · cases h
      · exact Nat.le_succ_of_le (ih rest h)

/-- `re.sub(r"\(.*?\)", "", s)`: repeatedly delete the leftmost
non-greedy parenthesized span.  Fuel-indexed so that the kernel can
evaluate it; `removeParens` supplies sufficient fuel. -/
def removeParensF : Nat → List Char → List Char
  | 0, l => l
  | _, [] => []
  | fuel + 1, c :: r =>
    if c = '(' then
      match findClose r with
      | some rest => removeParensF fuel rest
      | none => c :: removeParensF fuel r
    else c :: removeParensF fuel r

def removeParens (l : List Char) : List Char := removeParensF l.length l

/-- `s.replace('&', ' and ')`. -/
def ampReplace (l : List Char) : List Char :=
  l.flatMap fun c => if c = '&' then [' ', 'a', 'n', 'd', ' '] else [c]

/-- Pointwise part of `re.sub(r"[^a-z0-9]+", "-", s)`: every character
outside `[a-z0-9]` becomes a hyphen (run collapsing is `squashDash`). -/
def dashify (l : List Char) : List Char :=
  l.map fun c => if isLowerAlnum c then c else '-'

/-- `re.sub(r"-+", "-", s)`: collapse each maximal run of hyphens to one.
Composed with `dashify` this is exactly `re.sub(r"[^a-z0-9]+", "-", s)`,
since after `dashify` every hyphen stands for a non-alphanumeric source
character. -/
def squashDash : List Char → List Char
  | [] => []
  | [c] => [c]
  | c :: c' :: r =>
    if c = '-' && c' = '-' then squashDash (c' :: r)
    else c :: squashDash (c' :: r)

/-- `s.strip('-')`: drop leading and trailing hyphens. -/
def stripDashes (l : List Char) : List Char :=
  (((l.dropWhile (fun c => c = '-')).reverse.dropWhile (fun c => c = '-'))).reverse

/-- The local `norm` of both drivers (print_event_prompts.py line 186):
`re.sub(r"-+",'-', re.sub(r"[^a-z0-9]+",'-', re.sub(r"\(.*?\)",'',
(s or '').lower()))).strip('-')`. -/
def normKeyL (l : List Char) : List Char :=
  stripDashes (squashDash (squashDash (dashify (removeParens (l.map pyLower)))))

/-- `slugify` (print_event_prompts.py lines 34–42): the same pipeline with
`&` mapped to `' and '` after parenthetical removal, and the fallback
`'team'` for empty input. -/
def slugifyL (l : List Char) : List Char :=
  if l = [] then ['t', 'e', 'a', 'm']
  else stripDashes (squashDash (squashDash (dashify (ampReplace (removeParens (l.map pyLower))))))

def norm (s : String) : String := String.mk (normKeyL s.toList)

def slugify (s : String) : String := String.mk (slugifyL s.toList)

/-- `str.strip()` with no argument. -/
def pyStrip (s : String) : String :=
  String.mk (((s.toList.dropWhile isPySpace).reverse.dropWhile isPySpace).reverse)

/-! ### Dates: `datetime.strptime(d, '%Y-%m-%d')`, `timedelta(days=±1)`,
`strftime('%Y-%m-%d')` -/

def isDigitC (c : Char) : Bool := 48 ≤ c.toNat && c.toNat ≤ 57

def digitVal (c : Char) : Nat := c.toNat - 48

/-- The `%m` directive of `strptime`: regex `1[0-2]|0[1-9]|[1-9]`
(two-digit alternatives first; no further backtracking is needed because a
two-digit match is never followed by the literal `-` that the one-digit
alternative would require). -/
def parseMonth : List Char → Option (Nat × List Char)
  | a :: b :: r =>
    if isDigitC a && isDigitC b then
      let v := 10 * digitVal a + digitVal b
      if 1 ≤ v && v ≤ 12 then some (v, r) else
      if 1 ≤ digitVal a && digitVal a ≤ 9 then some (digitVal a, b :: r) else none
    else if isDigitC a && 1 ≤ digitVal a && digitVal a ≤ 9 then some (digitVal a, b :: r)
    else none
  | [a] => if isDigitC a && 1 ≤ digitVal a && digitVal a ≤ 9 then some (digitVal a, []) else none
  | [] => none

/-- The `%d` directive followed by end of input: regex
`3[01]|[12]\d|0[1-9]|[1-9]` then `$` (strptime raises on leftover data). -/
def parseDayEnd : List Char → Option Nat
  | [a, b] =>
    if isDigitC a && isDigitC b then
      let v := 10 * digitVal a + digitVal b
      if 1 ≤ v && v ≤ 31 then some v else none
    else none
  | [a] => if isDigitC a && 1 ≤ digitVal a && digitVal a ≤ 9 then some (digitVal a) else none
  | _ => none

def isLeap (y : Nat) : Bool := y % 4 = 0 && (y % 100 ≠ 0 || y % 400 = 0)

def daysInMonth (y m : Nat) : Nat :=
  if m = 2 then (if isLeap y then 29 else 28)
  else if m = 4 || m = 6 || m = 9 || m = 11 then 30
  else 31

/-- `datetime.strptime(s, '%Y-%m-%d')`, as year/month/day, or `none` for the
`ValueError` it raises on a format or calendar-validity failure
(`%Y` is exactly four digits; `datetime` requires year ≥ 1 and a real
calendar day). -/
def parseYMD (s : String) : Option (Nat × Nat × Nat) :=
  match s.toList with
  | y1 :: y2 :: y3 :: y4 :: '-' :: rest =>
    if isDigitC y1 && isDigitC y2 && isDigitC y3 && isDigitC y4 then
      let y := 1000 * digitVal y1 + 100 * digitVal y2 + 10 * digitVal y3 + digitVal y4
      match parseMonth rest with
      | some (m, '-' :: rest2) =>
        match parseDayEnd rest2 with
        | some d => if 1 ≤ y && d ≤ daysInMonth y m then some (y, m, d) else none
        | none => none
      | _ => none
    else none
  | _ => none

def nextDay : Nat × Nat × Nat → Nat × Nat × Nat
  | (y, m, d) =>
    if d < daysInMonth y m then (y, m, d + 1)
    else if m < 12 then (y, m + 1, 1)
    else (y + 1, 1, 1)

def prevDay : Nat × Nat × Nat → Nat × Nat × Nat
  | (y, m, d) =>
    if 1 < d then (y, m, d - 1)
    else if 1 < m then (y, m - 1, daysInMonth y (m - 1))
    else (y - 1, 12, 31)

def pad2 (n : Nat) : String := if n < 10 then "0" ++ toString n else toString n

def pad4 (n : Nat) : String :=
  if n < 10 then "000" ++ toString n
  else if n < 100 then "00" ++ toString n
  else if n < 1000 then "0" ++ toString n
  else toString n

/-- `strftime('%Y-%m-%d')` (all dates exercised here have four-digit years,
where zero-padding is uncontroversial). -/
def fmtYMD : Nat × Nat × Nat → String
  | (y, m, d) => pad4 y ++ "-" ++ pad2 m ++ "-" ++ pad2 d

/-- `alt_dates` of print_event_prompts.py (lines 154–164): the candidate
date strings `{d-1, d, d+1}`; any exception — a `strptime` `ValueError` or
the `OverflowError` that `timedelta` arithmetic raises at `datetime.min` /
`datetime.max` — degrades to the singleton `{d}`. -/
def altDates (d : String) : List String :=
  match parseYMD d with
  | none => [d]
  | some ymd =>
    if ymd = (1, 1, 1) || ymd = (9999, 12, 31) then [d]
    else [fmtYMD (prevDay ymd), fmtYMD ymd, fmtYMD (nextDay ymd)]

/-- The same date-window computation in scaffold_games_from_my_events.py
(lines 65–70), which has no `try`/`except`: a parse failure or overflow is
an uncaught exception. -/
def scaffoldDateSet (d : String) : Except String (List String) :=
  match parseYMD d with
  | none => .error "ValueError: time data does not match format %Y-%m-%d"
  | some ymd =>
    if ymd = (1, 1, 1) || ymd = (9999, 12, 31) then .error "OverflowError: date value out of range"
    else .ok [fmtYMD (prevDay ymd), fmtYMD ymd, fmtYMD (nextDay ymd)]

/-! ### Data model -/

/-- An entry of `my_events.json` as the scripts read it: `dict.get` returns
`None` for a missing key, modelled as `Option`. -/
structure MyEvent where
  id : Option String := none
  date : Option String := none
  team1 : Option String := none
  team2 : Option String := none
deriving DecidableEq, Repr

/-- An entry of `events.json` (the canonical feed). -/
structure CanonEvent where
  id : Option String := none
  home_team : Option String := none
  away_team : Option String := none
  commence_time : Option String := none
deriving DecidableEq, Repr

/-- Python truthiness of a `str`-or-`None` value. -/
def pyTruthy : Option String → Bool
  | none => false
  | some s => s ≠ ""

/-- Python `x or y` for a `str`-or-`None` `x` and `str` `y`. -/
def pyOr (o : Option String) (alt : String) : String :=
  if pyTruthy o then o.getD "" else alt

/-- Python `x or y` when both sides are `str`-or-`None`. -/
def pyOrO (a b : Option String) : Option String := if pyTruthy a then a else b

/-- Python `str(x)` of a `str`-or-`None` value. -/
def pyStrOpt : Option String → String
  | none => "None"
  | some s => s

/-- `date_only` of both drivers: `str(iso).split('T')[0]`. -/
def dateOnly (o : Option String) : String :=
  String.mk ((pyStrOpt o).toList.takeWhile (fun c => c ≠ 'T'))

/-- The candidate filter plus first-match selection of both drivers
(print_event_prompts.py lines 183–194, scaffold lines 72–79): restrict to
events whose `commence_time` date lies in the tolerance window, then take
the first whose normalized home/away pair equals the intended pair in
either order. -/
def matchEvent (dateSet : List String) (t1 t2 : String) (events : List CanonEvent) :
    Option CanonEvent :=
  (events.filter fun e => dateSet.contains (dateOnly e.commence_time)).find? fun e =>
    (norm (e.home_team.getD "") == norm t2 && norm (e.away_team.getD "") == norm t1)
    || (norm (e.home_team.getD "") == norm t1 && norm (e.away_team.getD "") == norm t2)

/-- `matchEvent` as applied to an IntendedEvent by the prompt driver:
fields are fetched with `.get(…) or ''` and stripped. -/
def matchIntended (ev : MyEvent) (events : List CanonEvent) : Option CanonEvent :=
  matchEvent (altDates (pyStrip (ev.date.getD "")))
    (pyStrip (ev.team1.getD "")) (pyStrip (ev.team2.getD "")) events

/-- `find_game_file` (print_event_prompts.py lines 44–48) /
the filename derivation of the scaffold (lines 88–91). -/
def findGameFileName (away home date : String) : String :=
  "game-" ++ slugify away ++ "-vs-" ++ slugify home ++ "-" ++ date ++ ".json"

/-! ### Pass B filename parsing:
`re.match(r'^game-(.+)-vs-(.+)-(\d{4}-\d{2}-\d{2})\.json$', name)`
(print_event_prompts.py line 216) -/

/-- Split `l` at the *last* occurrence of `-vs-` that leaves a non-empty
remainder: the split the greedy group `(.+)` before `-vs-` produces.  An
occurrence is only taken when no later one exists (backtracking). -/
def splitLastVs0 : List Char → Option (List Char × List Char)
  | [] => none
  | c :: rest =>
    match splitLastVs0 rest with
    | some (pre, post) => some (c :: pre, post)
    | none =>
      if c = '-' ∧ rest.take 3 = ['v', 's', '-'] ∧ rest.drop 3 ≠ [] then
        some ([], rest.drop 3)
      else none

/-- The `\d{4}-\d{2}-\d{2}` group (ASCII digits). -/
def dateShaped : List Char → Bool
  | [a, b, c, d, '-', e, f, '-', g, h] =>
    isDigitC a && isDigitC b && isDigitC c && isDigitC d &&
    isDigitC e && isDigitC f && isDigitC g && isDigitC h
  | _ => false

/-- The whole Pass B filename parse: the literal `game-` prefix, then —
reading the rest from the right — the literal `.json`, the ten-character
date group preceded by a literal `-`, and the remaining body split at the
last `-vs-`.  `.` does not match a newline (hence the
`body.contains '\n'` rejection) and `$` also matches just before one
trailing newline. -/
def parseGameFilename (name : String) : Option (String × String × String) :=
  let l0 := name.toList
  let l := if l0.reverse.head? = some '\n' then l0.dropLast else l0
  match l with
  | 'g' :: 'a' :: 'm' :: 'e' :: '-' :: m =>
    match m.reverse with
    | 'n' :: 'o' :: 's' :: 'j' :: '.' :: rmid =>
      match rmid with
      | c10 :: c9 :: c8 :: c7 :: c6 :: c5 :: c4 :: c3 :: c2 :: c1 :: '-' :: bodyR =>
        if dateShaped [c1, c2, c3, c4, c5, c6, c7, c8, c9, c10] then
          let body := bodyR.reverse
          if body.contains '\n' then none
          else
            match splitLastVs0 body with
            | some (pre, post) =>
              if pre = [] then none
              else some (String.mk pre, String.mk post,
                String.mk [c1, c2, c3, c4, c5, c6, c7, c8, c9, c10])
            | none => none
        else none
      | _ => none
    | _ => none
  | _ => none

/-! ### Filesystem model and completion classifier -/

/-- The state of one path: absent, readable with content `s`, or existing
but unreadable (`read_text` raises). -/
inductive FileState where
  | absent
  | content (s : String)
  | unreadable
deriving DecidableEq, Repr

/-- A filesystem: content state per path name. -/
def FS := String → FileState

def pathExists : FileState → Bool
  | .absent => false
  | _ => true

/-- `file_is_empty` (print_event_prompts.py lines 50–57): exists, readable,
and whitespace-stripped content equal to the empty string; any read error
yields `False`. -/
def fileIsEmpty : FileState → Bool
  | .absent => false
  | .content s => pyStrip s == ""
  | .unreadable => false

/-! ### The prompt driver (`main` of print_event_prompts.py) -/

/-- One `print_prompt(away, home, ev_id, filename)` call (line 140):
its four arguments, rendered as Python `print` renders them. -/
structure Prompt where
  away : String
  home : String
  ev_id : String
  filename : String
deriving DecidableEq, Repr

/-- One iteration of the Pass A loop (lines 166–210) over the `printed`
set, returning the new `printed` set and the prompts emitted (none or
one).  Malformed entries are skipped with no output at all. -/
def passAStep (allEvents : List CanonEvent) (fs : FS) (printed : List String)
    (ev : MyEvent) : List String × List Prompt :=
  let date := pyStrip (ev.date.getD "")
  let team1 := pyStrip (ev.team1.getD "")
  let team2 := pyStrip (ev.team2.getD "")
  if date = "" || team1 = "" || team2 = "" then (printed, [])
  else
    match matchEvent (altDates date) team1 team2 allEvents with
    | none => (printed, [])
    | some m =>
      let away := pyOr m.away_team team1
      let home := pyOr m.home_team team2
      let evId := pyOrO m.id ev.id
      let gp := findGameFileName away home date
      if pyTruthy evId && fileIsEmpty (fs gp) && !(printed.contains gp) then
        (gp :: printed, [⟨away, home, pyStrOpt evId, gp⟩])
      else (printed, [])

/-- One iteration of the Pass B loop (lines 213–249). -/
def passBStep (allEvents : List CanonEvent) (fs : FS) (printed : List String)
    (path : String) : List String × List Prompt :=
  if !(fileIsEmpty (fs path)) then (printed, [])
  else
    match parseGameFilename path with
    | none => (printed, [])
    | some (awaySlug, homeSlug, date) =>
      let dateSet := altDates date
      let cands := allEvents.filter fun e => dateSet.contains (dateOnly e.commence_time)
      match cands.find? (fun e =>
          (slugify (e.away_team.getD "") == awaySlug && slugify (e.home_team.getD "") == homeSlug)
          || (slugify (e.away_team.getD "") == homeSlug && slugify (e.home_team.getD "") == awaySlug)) with
      | none => (printed, [])
      | some m =>
        if printed.contains path then (printed, [])
        else (path :: printed, [⟨pyStrOpt m.away_team, pyStrOpt m.home_team, pyStrOpt m.id, path⟩])

/-- Fold a per-item step through the `printed` set, concatenating emitted
prompts in order. -/
def runFold {α : Type} (step : List String → α → List String × List Prompt) :
    List String → List α → List String × List Prompt
  | printed, [] => (printed, [])
  | printed, x :: xs =>
    let pr := step printed x
    let rest := runFold step pr.1 xs
    (rest.1, pr.2 ++ rest.2)

/-- The whole prompt-driver run: Pass A over `my_events`, then Pass B over
the (sorted) listing of existing `game-*-vs-*-*.json` files, sharing one
`printed` set. -/
def runMain (myEvents : List MyEvent) (allEvents : List CanonEvent) (fs : FS)
    (passBPaths : List String) : List Prompt :=
  let a := runFold (passAStep allEvents fs) [] myEvents
  let b := runFold (passBStep allEvents fs) a.1 passBPaths
  a.2 ++ b.2

/-! ### The scaffolding driver (`ensure_game_file` / `main` of
scaffold_games_from_my_events.py) -/

/-- Operator diagnostics printed by `ensure_game_file`. -/
inductive ScafMsg where
  | malformed
  | noMatch (t1 t2 date : String)
  | alreadyExists (name : String)
  | created (name : String)
deriving DecidableEq, Repr

def updateFS (fs : FS) (p : String) (st : FileState) : FS :=
  fun q => if q = p then st else fs q

/-- `ensure_game_file(ev, all_events)` (lines 47–99).  The date-window
computation is not guarded by `try`/`except`, so its exceptions escape
(`Except.error`).  `path.touch()` creates a zero-byte file. -/
def ensureGameFile (allEvents : List CanonEvent) (ev : MyEvent) (fs : FS) :
    Except String (FS × List ScafMsg × Option String) :=
  let date := pyStrip (ev.date.getD "")
  let team1 := pyStrip (ev.team1.getD "")
  let team2 := pyStrip (ev.team2.getD "")
  if date = "" || team1 = "" || team2 = "" then .ok (fs, [.malformed], none)
  else
    match scaffoldDateSet date with
    | .error e => .error e
    | .ok dateSet =>
      match matchEvent dateSet team1 team2 allEvents with
      | none => .ok (fs, [.noMatch team1 team2 date], none)
      | some m =>
        if !(pyTruthy m.id) then .ok (fs, [.noMatch team1 team2 date], none)
        else
          let filename := "game-" ++ slugify (m.away_team.getD "") ++ "-vs-" ++
            slugify (m.home_team.getD "") ++ "-" ++ date ++ ".json"
          if pathExists (fs filename) then .ok (fs, [.alreadyExists filename], some filename)
          else .ok (updateFS fs filename (.content ""), [.created filename], some filename)

/-- The scaffold `main` loop (lines 101–111): one `ensure_game_file` call
per entry; an uncaught exception aborts the remainder of the run. -/
def scaffoldRun (allEvents : List CanonEvent) (evs : List MyEvent) (fs : FS) :
    Except String (FS × List ScafMsg) :=
  match evs with
  | [] => .ok (fs, [])
  | ev :: rest =>
    match ensureGameFile allEvents ev fs with
    | .error e => .error e
    | .ok (fs', msgs, _) =>
      match scaffoldRun allEvents rest fs' with
      | .error e => .error e
      | .ok (fs'', msgs') => .ok (fs'', msgs ++ msgs')

/-! ### General helper lemmas -/

theorem find?_ext {α : Type} (p q : α → Bool) (h : ∀ a, p a = q a) :
    ∀ l : List α, l.find? p = l.find? q := by
  intro l
  induction l with
  | nil => rfl
  | cons a t ih =>
    simp only [List.find?_cons]
    rw [h a]
    cases q a
    · exact ih
    · rfl

/-! ### Claims -/

/-- C1: the IntendedEvent `{date: "2025-09-20", team1: "Alabama",
team2: "Tennessee (FL)"}` matches the CanonicalEvent `{id: "abc123",
home_team: "Tennessee", away_team: "Alabama",
commence_time: "2025-09-21T00:30:00Z"}` (whose UTC date lies in the
tolerance window of 2025-09-20), and the identity derived from the match
with the intended date is `game-alabama-vs-tennessee-2025-09-20.json`. -/
theorem claim_c1 :
    (altDates "2025-09-20").contains (dateOnly (some "2025-09-21T00:30:00Z")) = true ∧
    matchIntended ⟨none, some "2025-09-20", some "Alabama", some "Tennessee (FL)"⟩
      [⟨some "abc123", some "Tennessee", some "Alabama", some "2025-09-21T00:30:00Z"⟩] =
      some ⟨some "abc123", some "Tennessee", some "Alabama", some "2025-09-21T00:30:00Z"⟩ ∧
    findGameFileName "Alabama" "Tennessee" "2025-09-20" =
      "game-alabama-vs-tennessee-2025-09-20.json" := by
  refine ⟨by decide, by decide, by decide⟩

/-- C2: matching is order-insensitive — swapping `team1` and `team2` of an
IntendedEvent yields the same MatchResult, for every event and canonical
collection. -/
theorem claim_c2 (ev : MyEvent) (events : List CanonEvent) :
    matchIntended { ev with team1 := ev.team2, team2 := ev.team1 } events =
      matchIntended ev events := by
  unfold matchIntended matchEvent
  exact find?_ext _ _ (fun e => Bool.or_comm _ _) _

/-- C6: the completion classifier reports "empty" exactly for an existing,
readable file whose whitespace-stripped content is the empty string; a
read error counts as not empty; `"   "` classifies as empty and `"{}"` as
populated. -/
theorem claim_c6 :
    (∀ st : FileState, fileIsEmpty st = true ↔ ∃ s, st = .content s ∧ pyStrip s = "") ∧
    fileIsEmpty (.content "   ") = true ∧ fileIsEmpty (.content "{}") = false ∧
    fileIsEmpty .unreadable = false ∧ fileIsEmpty .absent = false := by
  refine ⟨fun st => ?_, by decide, by decide, by decide, by decide⟩
  cases st with
  | absent => simp [fileIsEmpty]
  | unreadable => simp [fileIsEmpty]
  | content s => simp [fileIsEmpty]

/-- C10: `slugify` returns the empty string (not the fallback `"team"`) on
non-empty inputs made of parentheticals or punctuation only, the fallback
applies to the empty input, and a derived filename can therefore contain
an empty slug segment. -/
theorem claim_c10 :
    slugify "(FL)" = "" ∧ slugify "---" = "" ∧ slugify "" = "team" ∧
    findGameFileName "(FL)" "x" "2025-09-20" = "game--vs-x-2025-09-20.json" := by
  refine ⟨by decide, by decide, by decide, by decide⟩

theorem pathExists_false (st : FileState) (h : pathExists st ≠ true) : st = .absent := by
  cases st <;> simp [pathExists] at h ⊢

theorem update_frame (fs : FS) (q : String) (habs : fs q = .absent) (p : String) :
    (fs p ≠ .absent → updateFS fs q (.content "") p = fs p) ∧
    (updateFS fs q (.content "") p ≠ fs p →
      fs p = .absent ∧ updateFS fs q (.content "") p = .content "") := by
  unfold updateFS
  by_cases hp : p = q
  · subst hp; simp [habs]
  · simp [hp]

/-- Frame property of a single `ensure_game_file` call: an existing path is
never changed, and any change is the creation of a zero-byte file at a
previously absent path. -/
theorem ensureGameFile_frame (allEvents : List CanonEvent) (ev : MyEvent)
    (fs fs' : FS) (msgs : List ScafMsg) (ret : Option String)
    (h : ensureGameFile allEvents ev fs = .ok (fs', msgs, ret)) (p : String) :
    (fs p ≠ .absent → fs' p = fs p) ∧ (fs' p ≠ fs p → fs p = .absent ∧ fs' p = .content "") := by
  unfold ensureGameFile at h
  dsimp only at h
  split at h
  · cases h
    exact ⟨fun _ => rfl, fun hne => absurd rfl hne⟩
  · split at h
    · cases h
    · split at h
      · cases h
        exact ⟨fun _ => rfl, fun hne => absurd rfl hne⟩
      · split at h
        · cases h
          exact ⟨fun _ => rfl, fun hne => absurd rfl hne⟩
        · split at h
          · cases h
            exact ⟨fun _ => rfl, fun hne => absurd rfl hne⟩
          · rename_i hex
            cases h
            exact update_frame fs _ (pathExists_false _ hex) p

/-- C8: a scaffolding run never deletes or truncates an existing file —
every path that exists before the run keeps its exact content, and any
path the run changes was absent and becomes a zero-byte (empty-content)
file. -/
theorem claim_c8 (allEvents : List CanonEvent) (evs : List MyEvent) (fs fs' : FS)
    (msgs : List ScafMsg) (h : scaffoldRun allEvents evs fs = .ok (fs', msgs)) (p : String) :
    (fs p ≠ .absent → fs' p = fs p) ∧
    (fs' p ≠ fs p → fs p = .absent ∧ fs' p = .content "") := by
  induction evs generalizing fs fs' msgs with
  | nil =>
    unfold scaffoldRun at h
    cases h
    exact ⟨fun _ => rfl, fun hne => absurd rfl hne⟩
  | cons ev rest ih =>
    unfold scaffoldRun at h
    cases he : ensureGameFile allEvents ev fs with
    | error e => rw [he] at h; cases h
    | ok out =>
      obtain ⟨fs1, msgs1, ret1⟩ := out
      rw [he] at h
      dsimp only at h
      cases hr : scaffoldRun allEvents rest fs1 with
      | error e => rw [hr] at h; cases h
      | ok out2 =>
        obtain ⟨fs2, msgs2⟩ := out2
        rw [hr] at h
        cases h
        have h1 := ensureGameFile_frame allEvents ev fs fs1 msgs1 ret1 he p
        have h2 := ih fs1 fs' msgs2 hr
        constructor
        · intro hne
          have e1 : fs1 p = fs p := h1.1 hne
          have hne1 : fs1 p ≠ .absent := by rw [e1]; exact hne
          rw [h2.1 hne1, e1]
        · intro hch
          by_cases hmid : fs' p = fs1 p
          · have hst : fs1 p ≠ fs p := by rw [← hmid]; exact hch
            obtain ⟨ha, hc⟩ := h1.2 hst
            exact ⟨ha, by rw [hmid, hc]⟩
          · obtain ⟨ha1, hc1⟩ := h2.2 hmid
            have hfp : fs p = .absent := by
              by_contra hne
              have e1 : fs1 p = fs p := h1.1 hne
              rw [e1] at ha1
              exact hne ha1
            exact ⟨hfp, hc1⟩

/-- Witness for C8: a concrete run over an absent filesystem creates the
matched game file as a zero-byte file. -/
theorem claim_c8_witness :
    (fun _ => FileState.absent : FS) "game-alabama-vs-tennessee-2025-09-20.json" = .absent ∧
    updateFS (fun _ => FileState.absent) "game-alabama-vs-tennessee-2025-09-20.json"
      (.content "") "game-alabama-vs-tennessee-2025-09-20.json" = .content "" :=
  ⟨rfl,
    ((claim_c8 [⟨some "id1", some "Tennessee", some "Alabama", some "2025-09-21T00:30:00Z"⟩]
        [⟨none, some "2025-09-20", some "Alabama", some "Tennessee (FL)"⟩]
        (fun _ => FileState.absent)
        (updateFS (fun _ => FileState.absent) "game-alabama-vs-tennessee-2025-09-20.json"
          (.content ""))
        [ScafMsg.created "game-alabama-vs-tennessee-2025-09-20.json"]
        rfl "game-alabama-vs-tennessee-2025-09-20.json").2 (by decide)).2⟩

/-- C3 counterexample: an unparsable (but present) date does *not* degrade
gracefully in the scaffolding driver — `ensure_game_file` computes the
tolerance window with no `try`/`except` (scaffold lines 66–70), so the
`ValueError` aborts the whole run. -/
theorem claim_c3_counterexample :
    parseYMD "bad-date" = none ∧
    scaffoldRun [] [⟨none, some "bad-date", some "a", some "b"⟩] (fun _ => .absent) =
      .error "ValueError: time data does not match format %Y-%m-%d" :=
  ⟨by decide, rfl⟩

/-- C3 amended: when the date fails to parse, the prompt driver's
`alt_dates` returns the singleton `{date}` unchanged and that driver
continues; the scaffolding driver, by contrast, raises an uncaught
`ValueError` on any well-formed entry with an unparsable date, aborting
the run. -/
theorem claim_c3_amended :
    (∀ d : String, parseYMD d = none → altDates d = [d]) ∧
    (∀ (allEvents : List CanonEvent) (ev : MyEvent) (fs : FS),
      pyStrip (ev.date.getD "") ≠ "" → pyStrip (ev.team1.getD "") ≠ "" →
      pyStrip (ev.team2.getD "") ≠ "" → parseYMD (pyStrip (ev.date.getD "")) = none →
      ensureGameFile allEvents ev fs =
        .error "ValueError: time data does not match format %Y-%m-%d") := by
  constructor
  · intro d h
    unfold altDates
    rw [h]
  · intro allEvents ev fs hd h1 h2 hp
    unfold ensureGameFile
    dsimp only
    rw [if_neg (by simp [hd, h1, h2])]
    unfold scaffoldDateSet
    rw [hp]

/-- Witness for C3 (amended): both branches at concrete inputs. -/
theorem claim_c3_witness :
    altDates "bad-date" = ["bad-date"] ∧
    ensureGameFile [] ⟨none, some "bad-date", some "a", some "b"⟩ (fun _ => .absent) =
      .error "ValueError: time data does not match format %Y-%m-%d" :=
  ⟨claim_c3_amended.1 "bad-date" (by decide),
   claim_c3_amended.2 [] ⟨none, some "bad-date", some "a", some "b"⟩ (fun _ => .absent)
     (by decide) (by decide) (by decide) (by decide)⟩

/-- C4 counterexample: a malformed intended event (here: empty date) is
skipped by the prompt driver with *no* output at all — lines 166–172 of
print_event_prompts.py contain no print — while the model shows the
scaffolding driver does emit its warning.  The prompt-driver half of the
claim ("a diagnostic is emitted for each such skipped entry") is false. -/
theorem claim_c4_counterexample :
    passAStep [] (fun _ => .absent) [] ⟨none, some "", some "x", some "y"⟩ = ([], []) ∧
    ensureGameFile [] ⟨none, some "", some "x", some "y"⟩ (fun _ => .absent) =
      .ok (fun _ => .absent, [.malformed], none) :=
  ⟨rfl, rfl⟩

/-- C4 amended: both drivers skip a malformed intended event (missing or
whitespace-only date/team1/team2) before any date filtering or matching —
the step leaves all state unchanged and emits no unit of work — but only
the scaffolding driver emits a diagnostic; the prompt driver skips
silently. -/
theorem claim_c4_amended (ev : MyEvent)
    (h : pyStrip (ev.date.getD "") = "" ∨ pyStrip (ev.team1.getD "") = "" ∨
      pyStrip (ev.team2.getD "") = "") :
    (∀ (allEvents : List CanonEvent) (fs : FS) (printed : List String),
      passAStep allEvents fs printed ev = (printed, [])) ∧
    (∀ (allEvents : List CanonEvent) (fs : FS),
      ensureGameFile allEvents ev fs = .ok (fs, [.malformed], none)) := by
  have hb : (decide (pyStrip (ev.date.getD "") = "") ||
      decide (pyStrip (ev.team1.getD "") = "") ||
      decide (pyStrip (ev.team2.getD "") = "")) = true := by
    rcases h with h | h | h <;> simp [h]
  constructor
  · intro allEvents fs printed
    unfold passAStep
    dsimp only
    rw [if_pos hb]
  · intro allEvents fs
    unfold ensureGameFile
    dsimp only
    rw [if_pos hb]

/-- Witness for C4 (amended): a concrete malformed entry (whitespace-only
date). -/
theorem claim_c4_witness :
    passAStep [] (fun _ => .absent) [] ⟨none, some " ", some "x", some "y"⟩ = ([], []) ∧
    ensureGameFile [] ⟨none, some " ", some "x", some "y"⟩ (fun _ => .absent) =
      .ok (fun _ => .absent, [.malformed], none) :=
  ⟨(claim_c4_amended ⟨none, some " ", some "x", some "y"⟩ (Or.inl (by decide))).1 [] _ [],
   (claim_c4_amended ⟨none, some " ", some "x", some "y"⟩ (Or.inl (by decide))).2 [] _⟩

/-- Invariant of the `printed` set through a fold: the set only grows,
every emitted prompt's filename was new and gets recorded, and the emitted
filenames are pairwise distinct. -/
theorem runFold_ok {α : Type} (step : List String → α → List String × List Prompt)
    (hstep : ∀ (printed : List String) (x : α),
      (∀ f, f ∈ printed → f ∈ (step printed x).1) ∧
      (∀ pr, pr ∈ (step printed x).2 →
        pr.filename ∉ printed ∧ pr.filename ∈ (step printed x).1) ∧
      ((step printed x).2.map (fun q => q.filename)).Nodup) :
    ∀ (xs : List α) (printed : List String),
      (∀ f, f ∈ printed → f ∈ (runFold step printed xs).1) ∧
      (∀ pr, pr ∈ (runFold step printed xs).2 →
        pr.filename ∉ printed ∧ pr.filename ∈ (runFold step printed xs).1) ∧
      ((runFold step printed xs).2.map (fun q => q.filename)).Nodup := by
  intro xs
  induction xs with
  | nil =>
    intro printed
    exact ⟨fun f hf => hf, by simp [runFold], by simp [runFold]⟩
  | cons x xs ih =>
    intro printed
    obtain ⟨hm1, ho1, hn1⟩ := hstep printed x
    obtain ⟨hm2, ho2, hn2⟩ := ih (step printed x).1
    have hrun : runFold step printed (x :: xs) =
        ((runFold step (step printed x).1 xs).1,
          (step printed x).2 ++ (runFold step (step printed x).1 xs).2) := rfl
    rw [hrun]
    refine ⟨fun f hf => hm2 f (hm1 f hf), ?_, ?_⟩
    · intro pr hpr
      rcases List.mem_append.mp hpr with h | h
      · obtain ⟨hnm, hin⟩ := ho1 pr h
        exact ⟨hnm, hm2 _ hin⟩
      · obtain ⟨hnm, hin⟩ := ho2 pr h
        exact ⟨fun hc => hnm (hm1 _ hc), hin⟩
    · rw [List.map_append]
      refine List.Nodup.append hn1 hn2 ?_
      intro f hf1 hf2
      obtain ⟨pr, hpr, hfe⟩ := List.mem_map.mp hf1
      obtain ⟨pr', hpr', hfe'⟩ := List.mem_map.mp hf2
      have h1 : f ∈ (step printed x).1 := hfe ▸ (ho1 pr hpr).2
      have h2 : f ∉ (step printed x).1 := hfe' ▸ (ho2 pr' hpr').1
      exact h2 h1

theorem passAStep_ok (allEvents : List CanonEvent) (fs : FS) (printed : List String)
    (ev : MyEvent) :
    (∀ f, f ∈ printed → f ∈ (passAStep allEvents fs printed ev).1) ∧
    (∀ pr, pr ∈ (passAStep allEvents fs printed ev).2 →
      pr.filename ∉ printed ∧ pr.filename ∈ (passAStep allEvents fs printed ev).1) ∧
    ((passAStep allEvents fs printed ev).2.map (fun q => q.filename)).Nodup := by
  unfold passAStep
  dsimp only
  split
  · exact ⟨fun f hf => hf, by simp, by simp⟩
  · split
    · exact ⟨fun f hf => hf, by simp, by simp⟩
    · split
      · rename_i hguard
        simp only [Bool.and_eq_true, Bool.not_eq_true'] at hguard
        refine ⟨fun f hf => List.mem_cons_of_mem _ hf, ?_, by simp⟩
        intro pr hpr
        simp only [List.mem_singleton] at hpr
        subst hpr
        exact ⟨by simpa using hguard.2, List.mem_cons_self _ _⟩
      · exact ⟨fun f hf => hf, by simp, by simp⟩

theorem passBStep_ok (allEvents : List CanonEvent) (fs : FS) (printed : List String)
    (path : String) :
    (∀ f, f ∈ printed → f ∈ (passBStep allEvents fs printed path).1) ∧
    (∀ pr, pr ∈ (passBStep allEvents fs printed path).2 →
      pr.filename ∉ printed ∧ pr.filename ∈ (passBStep allEvents fs printed path).1) ∧
    ((passBStep allEvents fs printed path).2.map (fun q => q.filename)).Nodup := by
  unfold passBStep
  dsimp only
  split
  · exact ⟨fun f hf => hf, by simp, by simp⟩
  · split
    · exact ⟨fun f hf => hf, by simp, by simp⟩
    · split
      · exact ⟨fun f hf => hf, by simp, by simp⟩
      · split
        · exact ⟨fun f hf => hf, by simp, by simp⟩
        · rename_i hnc
          have hnm : path ∉ printed := by simpa using hnc
          refine ⟨fun f hf => List.mem_cons_of_mem _ hf, ?_, by simp⟩
          intro pr hpr
          simp only [List.mem_singleton] at hpr
          subst hpr
          exact ⟨hnm, List.mem_cons_self _ _⟩

/-- C5: within a single prompt-driver run, each filename is emitted at most
once — the filenames of all `print_prompt` invocations across Pass A and
Pass B are pairwise distinct, for every input. -/
theorem claim_c5 (myEvents : List MyEvent) (allEvents : List CanonEvent) (fs : FS)
    (passBPaths : List String) :
    ((runMain myEvents allEvents fs passBPaths).map (fun q => q.filename)).Nodup := by
  unfold runMain
  dsimp only
  obtain ⟨hmA, hoA, hnA⟩ :=
    runFold_ok _ (passAStep_ok allEvents fs) myEvents []
  obtain ⟨hmB, hoB, hnB⟩ :=
    runFold_ok _ (passBStep_ok allEvents fs) passBPaths
      (runFold (passAStep allEvents fs) [] myEvents).1
  rw [List.map_append]
  refine List.Nodup.append hnA hnB ?_
  intro f hf1 hf2
  obtain ⟨pr, hpr, hfe⟩ := List.mem_map.mp hf1
  obtain ⟨pr', hpr', hfe'⟩ := List.mem_map.mp hf2
  have h1 : f ∈ (runFold (passAStep allEvents fs) [] myEvents).1 := hfe ▸ (hoA pr hpr).2
  have h2 : f ∉ (runFold (passAStep allEvents fs) [] myEvents).1 := hfe' ▸ (hoB pr' hpr').1
  exact h2 h1

/-! ### Structure of normalizer outputs (towards idempotence) -/

/-- Adjacent characters are not both hyphens. -/
def DashRel (a b : Char) : Prop := ¬(a = '-' ∧ b = '-')

/-- No two adjacent hyphens anywhere in the list. -/
def NoDD (l : List Char) : Prop := List.Chain' DashRel l

theorem dropWhile_isSuffix (p : Char → Bool) (l : List Char) : l.dropWhile p <:+ l :=
  ⟨l.takeWhile p, l.takeWhile_append_dropWhile p⟩

theorem mem_stripDashes {c : Char} {l : List Char} (h : c ∈ stripDashes l) : c ∈ l := by
  unfold stripDashes at h
  rw [List.mem_reverse] at h
  have h2 := (dropWhile_isSuffix _ (l.dropWhile (fun c => c = '-')).reverse).subset h
  rw [List.mem_reverse] at h2
  exact (dropWhile_isSuffix _ l).subset h2

theorem mem_squashDash : ∀ (l : List Char) (c : Char), c ∈ squashDash l → c ∈ l := by
  intro l
  induction l with
  | nil => intro c hc; simp [squashDash] at hc
  | cons a t ih =>
    cases t with
    | nil => intro c hc; simpa [squashDash] using hc
    | cons b t' =>
      intro c hc
      unfold squashDash at hc
      split at hc
      · exact List.mem_cons_of_mem a (ih c hc)
      · rcases List.mem_cons.mp hc with h | h
        · exact h ▸ List.mem_cons_self _ _
        · exact List.mem_cons_of_mem a (ih c h)

theorem mem_dashify_ok {c : Char} {l : List Char} (h : c ∈ dashify l) : okChar c = true := by
  unfold dashify at h
  obtain ⟨x, _, hx⟩ := List.mem_map.mp h
  by_cases ha : isLowerAlnum x = true
  · rw [if_pos ha] at hx
    subst hx
    simp [okChar, ha]
  · rw [if_neg ha] at hx
    subst hx
    simp [okChar]

theorem mem_normKeyL_ok {c : Char} {l : List Char} (h : c ∈ normKeyL l) : okChar c = true := by
  unfold normKeyL at h
  exact mem_dashify_ok (mem_squashDash _ _ (mem_squashDash _ _ (mem_stripDashes h)))

theorem mem_slugifyTail_ok {c : Char} {l : List Char}
    (h : c ∈ stripDashes (squashDash (squashDash (dashify l)))) : okChar c = true :=
  mem_dashify_ok (mem_squashDash _ _ (mem_squashDash _ _ (mem_stripDashes h)))

theorem squashDash_cons_head : ∀ (t : List Char) (a : Char), ∃ u, squashDash (a :: t) = a :: u := by
  intro t
  induction t with
  | nil => intro a; exact ⟨[], rfl⟩
  | cons b t' ih =>
    intro a
    unfold squashDash
    split
    · rename_i hc
      obtain ⟨u, hu⟩ := ih b
      simp only [Bool.and_eq_true, decide_eq_true_eq] at hc
      exact ⟨u, by rw [hu, hc.1, hc.2]⟩
    · exact ⟨squashDash (b :: t'), rfl⟩

theorem noDD_squashDash : ∀ l : List Char, NoDD (squashDash l) := by
  intro l
  induction l with
  | nil => exact List.chain'_nil
  | cons a t ih =>
    cases t with
    | nil => exact List.chain'_singleton a
    | cons b t' =>
      unfold squashDash
      split
      · exact ih
      · rename_i hc
        obtain ⟨u, hu⟩ := squashDash_cons_head t' b
        rw [hu]
        rw [hu] at ih
        refine List.chain'_cons.mpr ⟨?_, ih⟩
        intro hab
        simp [hab.1, hab.2] at hc

theorem squashDash_eq_self : ∀ l : List Char, NoDD l → squashDash l = l := by
  intro l
  induction l with
  | nil => intro _; rfl
  | cons a t ih =>
    cases t with
    | nil => intro _; rfl
    | cons b t' =>
      intro h
      obtain ⟨hab, ht⟩ := List.chain'_cons.mp h
      unfold squashDash
      rw [if_neg (by simp only [Bool.and_eq_true, decide_eq_true_eq]; exact fun hc => hab hc)]
      rw [ih ht]

theorem noDD_reverse {l : List Char} (h : NoDD l) : NoDD l.reverse :=
  List.chain'_reverse.mpr (h.imp fun _ _ hab ⟨h1, h2⟩ => hab ⟨h2, h1⟩)

theorem noDD_stripDashes {l : List Char} (h : NoDD l) : NoDD (stripDashes l) := by
  unfold stripDashes
  exact noDD_reverse
    ((noDD_reverse (h.suffix (dropWhile_isSuffix _ l))).suffix (dropWhile_isSuffix _ _))

theorem head?_dropDash_ne (l : List Char) :
    (l.dropWhile (fun c => c = '-')).head? ≠ some '-' := by
  intro h
  have := List.head?_dropWhile_not (fun c : Char => decide (c = '-')) l
  rw [h] at this
  simp at this

theorem getLast?_isSuffix {l₁ l₂ : List Char} (h : l₁ <:+ l₂) (hne : l₁ ≠ []) :
    l₂.getLast? = l₁.getLast? := by
  obtain ⟨t, ht⟩ := h
  rw [← ht]
  exact List.getLast?_append_of_ne_nil t hne

theorem head?_stripDashes_ne (l : List Char) : (stripDashes l).head? ≠ some '-' := by
  unfold stripDashes
  rw [List.head?_reverse]
  by_cases hB :
      (l.dropWhile (fun c => c = '-')).reverse.dropWhile (fun c => c = '-') = []
  · rw [hB]; simp
  · rw [← getLast?_isSuffix
      (dropWhile_isSuffix (fun c => c = '-') (l.dropWhile (fun c => c = '-')).reverse) hB]
    rw [List.getLast?_reverse]
    exact head?_dropDash_ne l

theorem getLast?_stripDashes_ne (l : List Char) : (stripDashes l).getLast? ≠ some '-' := by
  unfold stripDashes
  rw [List.getLast?_reverse]
  exact head?_dropDash_ne _

theorem dropDash_eq_self {l : List Char} (h : l.head? ≠ some '-') :
    l.dropWhile (fun c => c = '-') = l := by
  cases l with
  | nil => rfl
  | cons c t =>
    rw [List.head?_cons] at h
    exact List.dropWhile_cons_of_neg (by simpa using fun hc => h (by rw [hc]))

theorem stripDashes_eq_self {l : List Char} (h1 : l.head? ≠ some '-')
    (h2 : l.getLast? ≠ some '-') : stripDashes l = l := by
  unfold stripDashes
  rw [dropDash_eq_self h1]
  rw [dropDash_eq_self (by rw [List.head?_reverse]; exact h2)]
  exact List.reverse_reverse l

/-! ### Identity of each pipeline stage on normalized output -/

theorem pyLower_okChar {c : Char} (h : okChar c = true) : pyLower c = c := by
  unfold pyLower
  simp only [okChar, isLowerAlnum, Bool.or_eq_true, Bool.and_eq_true, decide_eq_true_eq] at h
  rw [if_neg]
  simp only [Bool.and_eq_true, decide_eq_true_eq, not_and]
  intro h65
  rcases h with (h | h) | h
  · omega
  · omega
  · subst h
    exact absurd h65 (by decide)

theorem map_pyLower_id {l : List Char} (h : ∀ c ∈ l, okChar c = true) :
    l.map pyLower = l := by
  induction l with
  | nil => rfl
  | cons c t ih =>
    rw [List.map_cons, pyLower_okChar (h c (List.mem_cons_self _ _)),
      ih fun c hc => h c (List.mem_cons_of_mem _ hc)]

theorem okChar_ne_paren {c : Char} (h : okChar c = true) : c ≠ '(' := by
  simp only [okChar, isLowerAlnum, Bool.or_eq_true, Bool.and_eq_true, decide_eq_true_eq] at h
  intro hc
  subst hc
  rcases h with (h | h) | h <;> simp_all

theorem okChar_ne_amp {c : Char} (h : okChar c = true) : c ≠ '&' := by
  simp only [okChar, isLowerAlnum, Bool.or_eq_true, Bool.and_eq_true, decide_eq_true_eq] at h
  intro hc
  subst hc
  rcases h with (h | h) | h <;> simp_all

theorem removeParensF_eq_self : ∀ (fuel : Nat) (l : List Char),
    (∀ c ∈ l, c ≠ '(') → removeParensF fuel l = l := by
  intro fuel
  induction fuel with
  | zero => intro l _; cases l <;> rfl
  | succ n ih =>
    intro l h
    cases l with
    | nil => rfl
    | cons c t =>
      unfold removeParensF
      rw [if_neg (h c (List.mem_cons_self _ _))]
      rw [ih t fun c hc => h c (List.mem_cons_of_mem _ hc)]

theorem removeParens_eq_self {l : List Char} (h : ∀ c ∈ l, c ≠ '(') :
    removeParens l = l := removeParensF_eq_self _ l h

theorem ampReplace_eq_self {l : List Char} (h : ∀ c ∈ l, c ≠ '&') :
    ampReplace l = l := by
  induction l with
  | nil => rfl
  | cons c t ih =>
    unfold ampReplace at ih ⊢
    rw [List.flatMap_cons, if_neg (h c (List.mem_cons_self _ _)),
      ih fun c hc => h c (List.mem_cons_of_mem _ hc)]
    rfl

theorem dashify_eq_self {l : List Char} (h : ∀ c ∈ l, okChar c = true) :
    dashify l = l := by
  induction l with
  | nil => rfl
  | cons c t ih =>
    unfold dashify at ih ⊢
    rw [List.map_cons, ih fun c hc => h c (List.mem_cons_of_mem _ hc)]
    have hc := h c (List.mem_cons_self _ _)
    simp only [okChar, Bool.or_eq_true, decide_eq_true_eq] at hc
    rcases hc with hc | hc
    · rw [if_pos hc]
    · rw [hc]; simp [isLowerAlnum]

/-- The common tail of both pipelines fixes any list that is already
normalized: all characters in `[a-z0-9-]`, no adjacent hyphens, no leading
or trailing hyphen. -/
theorem pipeline_fixes {r : List Char} (hok : ∀ c ∈ r, okChar c = true)
    (hdd : NoDD r) (hh : r.head? ≠ some '-') (hl : r.getLast? ≠ some '-') :
    stripDashes (squashDash (squashDash (dashify r))) = r := by
  rw [dashify_eq_self hok, squashDash_eq_self r hdd, squashDash_eq_self r hdd,
    stripDashes_eq_self hh hl]

theorem normKeyL_normalized (l : List Char) :
    (∀ c ∈ normKeyL l, okChar c = true) ∧ NoDD (normKeyL l) ∧
    (normKeyL l).head? ≠ some '-' ∧ (normKeyL l).getLast? ≠ some '-' := by
  refine ⟨fun c hc => mem_normKeyL_ok hc, ?_, ?_, ?_⟩
  · unfold normKeyL
    exact noDD_stripDashes (noDD_squashDash _)
  · exact head?_stripDashes_ne _
  · exact getLast?_stripDashes_ne _

theorem normKeyL_idem (l : List Char) : normKeyL (normKeyL l) = normKeyL l := by
  obtain ⟨hok, hdd, hh, hl⟩ := normKeyL_normalized l
  show stripDashes (squashDash (squashDash (dashify (removeParens ((normKeyL l).map pyLower))))) =
    normKeyL l
  rw [map_pyLower_id hok, removeParens_eq_self fun c hc => okChar_ne_paren (hok c hc)]
  exact pipeline_fixes hok hdd hh hl

theorem slugifyL_normalized (l : List Char) (hne : l ≠ []) :
    (∀ c ∈ slugifyL l, okChar c = true) ∧ NoDD (slugifyL l) ∧
    (slugifyL l).head? ≠ some '-' ∧ (slugifyL l).getLast? ≠ some '-' := by
  unfold slugifyL
  rw [if_neg hne]
  refine ⟨fun c hc => mem_slugifyTail_ok hc, ?_, ?_, ?_⟩
  · exact noDD_stripDashes (noDD_squashDash _)
  · exact head?_stripDashes_ne _
  · exact getLast?_stripDashes_ne _

theorem slugifyL_of_ne {l : List Char} (h : l ≠ []) :
    slugifyL l =
      stripDashes (squashDash (squashDash (dashify
        (ampReplace (removeParens (l.map pyLower)))))) := by
  unfold slugifyL
  rw [if_neg h]

theorem slugifyL_idem {l : List Char} (hne : l ≠ []) (hs : slugifyL l ≠ []) :
    slugifyL (slugifyL l) = slugifyL l := by
  obtain ⟨hok, hdd, hh, hl⟩ := slugifyL_normalized l hne
  rw [slugifyL_of_ne hs]
  rw [map_pyLower_id hok, removeParens_eq_self fun c hc => okChar_ne_paren (hok c hc),
    ampReplace_eq_self fun c hc => okChar_ne_amp (hok c hc)]
  exact pipeline_fixes hok hdd hh hl

/-- C7 counterexample: `slugify` is *not* idempotent — `slugify "(FL)"` is
the empty string, and a second application hits the empty-input fallback,
returning `"team"`. -/
theorem claim_c7_counterexample :
    slugify "(FL)" = "" ∧ slugify (slugify "(FL)") = "team" ∧
    slugify (slugify "(FL)") ≠ slugify "(FL)" := by
  refine ⟨by decide, by decide, by decide⟩

/-- C7 amended: `normalizeKey` is idempotent on every input; `slugify` is
idempotent on every input whose slug is non-empty (which includes the
empty input, via the fallback `slugify "" = "team"` and
`slugify "team" = "team"`), but not on non-empty inputs whose slug is
empty. -/
theorem claim_c7_amended :
    (∀ s : String, norm (norm s) = norm s) ∧
    (∀ s : String, slugify s ≠ "" → slugify (slugify s) = slugify s) ∧
    slugify (slugify "") = slugify "" := by
  refine ⟨fun s => ?_, fun s hs => ?_, by decide⟩
  · show String.mk (normKeyL (normKeyL s.toList)) = String.mk (normKeyL s.toList)
    rw [normKeyL_idem]
  · show String.mk (slugifyL (slugifyL s.toList)) = String.mk (slugifyL s.toList)
    rcases hl : s.toList with _ | ⟨c, t⟩
    · decide
    · have hsl : slugifyL (c :: t) ≠ [] := by
        intro he
        apply hs
        show String.mk (slugifyL s.toList) = ""
        rw [hl, he]
      exact congrArg String.mk (slugifyL_idem (by simp) hsl)

/-- Witness for C7 (amended): idempotence at concrete inputs with
non-empty slugs. -/
theorem claim_c7_witness :
    norm (norm "Texas A&M!") = norm "Texas A&M!" ∧
    (slugify "Texas A&M" ≠ "" ∧ slugify (slugify "Texas A&M") = slugify "Texas A&M") :=
  ⟨claim_c7_amended.1 "Texas A&M!",
   by decide, claim_c7_amended.2.1 "Texas A&M" (by decide)⟩

/-! ### Round-trip of the filename pattern (Pass B parse vs. derivation) -/

/-- Whether `-vs-` occurs as a substring. -/
def hasSep : List Char → Bool
  | [] => false
  | c :: r => (decide (c = '-') && decide (r.take 3 = ['v', 's', '-'])) || hasSep r

/-- The forward derivation `"game-" + a + "-vs-" + h + "-" + d + ".json"`
over raw slug lists. -/
def mkGameName (a h d : List Char) : String :=
  String.mk (['g', 'a', 'm', 'e', '-'] ++ a ++ ['-', 'v', 's', '-'] ++ h ++ ['-'] ++ d ++
    ['.', 'j', 's', 'o', 'n'])

theorem splitLastVs0_eq_none {l : List Char} (h : hasSep l = false) :
    splitLastVs0 l = none := by
  induction l with
  | nil => rfl
  | cons c r ih =>
    unfold hasSep at h
    rw [Bool.or_eq_false_iff] at h
    unfold splitLastVs0
    rw [ih h.2]
    rw [if_neg]
    rintro ⟨hc, ht, _⟩
    have := h.1
    simp [hc, ht] at this

theorem splitLastVs0_post_none {h : List Char} (hash : hasSep h = false)
    (hpre : h.take 3 ≠ ['v', 's', '-']) :
    splitLastVs0 ('v' :: 's' :: '-' :: h) = none := by
  have h0 : splitLastVs0 h = none := splitLastVs0_eq_none hash
  have h1 : splitLastVs0 ('-' :: h) = none := by
    unfold splitLastVs0
    rw [h0]
    rw [if_neg]
    rintro ⟨_, ht, _⟩
    exact hpre ht
  have h2 : splitLastVs0 ('s' :: '-' :: h) = none := by
    unfold splitLastVs0
    rw [h1]
    rw [if_neg]
    rintro ⟨hc, _, _⟩
    exact absurd hc (by decide)
  unfold splitLastVs0
  rw [h2]
  rw [if_neg]
  rintro ⟨hc, _, _⟩
  exact absurd hc (by decide)

theorem splitLastVs0_append (a : List Char) {h : List Char} (hne : h ≠ [])
    (hpost : splitLastVs0 ('v' :: 's' :: '-' :: h) = none) :
    splitLastVs0 (a ++ '-' :: 'v' :: 's' :: '-' :: h) = some (a, h) := by
  induction a with
  | nil =>
    rw [List.nil_append]
    unfold splitLastVs0
    rw [hpost]
    rw [if_pos ⟨rfl, rfl, hne⟩]
    exact rfl
  | cons c a' ih =>
    rw [List.cons_append]
    unfold splitLastVs0
    rw [ih]

theorem okChar_ne_newline {c : Char} (h : okChar c = true) : c ≠ '\n' := by
  simp only [okChar, isLowerAlnum, Bool.or_eq_true, Bool.and_eq_true, decide_eq_true_eq] at h
  intro hc
  subst hc
  rcases h with (h | h) | h <;> simp_all

theorem dateShaped_shape {d : List Char} (hd : dateShaped d = true) :
    ∃ y1 y2 y3 y4 m1 m2 d1 d2,
      d = [y1, y2, y3, y4, '-', m1, m2, '-', d1, d2] := by
  unfold dateShaped at hd
  split at hd
  · rename_i a b c dd e f g hh
    exact ⟨a, b, c, dd, e, f, g, hh, rfl⟩
  · cases hd

theorem contains_newline_false {l : List Char} (h : '\n' ∉ l) :
    l.contains '\n' = false := by
  rw [← Bool.not_eq_true]
  intro hc
  exact h (by simpa using hc)

/-- C9 counterexample: the slugs `a = "a"` and `h = "vs-y"` contain no
`-vs-` substring, yet the greedy parse splits the derived filename at the
later `-vs-` formed at the separator/`h` boundary, recovering
`("a-vs", "y")` instead of `("a", "vs-y")`. -/
theorem claim_c9_counterexample :
    hasSep "a".toList = false ∧ hasSep "vs-y".toList = false ∧
    "a".toList ≠ [] ∧ "vs-y".toList ≠ [] ∧
    (∀ c ∈ "a".toList, okChar c = true) ∧ (∀ c ∈ "vs-y".toList, okChar c = true) ∧
    dateShaped "2025-09-20".toList = true ∧
    parseGameFilename (mkGameName "a".toList "vs-y".toList "2025-09-20".toList) =
      some ("a-vs", "y", "2025-09-20") ∧
    parseGameFilename (mkGameName "a".toList "vs-y".toList "2025-09-20".toList) ≠
      some ("a", "vs-y", "2025-09-20") := by
  refine ⟨by decide, by decide, by decide, by decide, by decide, by decide, by decide,
    by decide, by decide⟩

/-- C9 amended: for non-empty slugs `a`, `h` over `[a-z0-9-]` such that
neither contains the substring `-vs-` *and `h` does not start with `vs-`*,
and every date of shape `YYYY-MM-DD`, the Pass B parse of the derived
filename recovers exactly `(a, h, d)`.  (Without the extra condition on
`h` the greedy parse can split elsewhere, as the counterexample shows;
occurrences of `-vs-` straddling the end of `a` are harmless because the
greedy parse prefers the rightmost split.) -/
theorem claim_c9_amended (a h d : List Char)
    (hane : a ≠ []) (hhne : h ≠ [])
    (haok : ∀ c ∈ a, okChar c = true) (hhok : ∀ c ∈ h, okChar c = true)
    (_hasa : hasSep a = false) (hash : hasSep h = false)
    (hpre : h.take 3 ≠ ['v', 's', '-'])
    (hd : dateShaped d = true) :
    parseGameFilename (mkGameName a h d) =
      some (String.mk a, String.mk h, String.mk d) := by
  obtain ⟨y1, y2, y3, y4, m1, m2, d1, d2, rfl⟩ := dateShaped_shape hd
  have hlast : (['g', 'a', 'm', 'e', '-'] ++ a ++ ['-', 'v', 's', '-'] ++ h ++ ['-'] ++
      [y1, y2, y3, y4, '-', m1, m2, '-', d1, d2] ++
      ['.', 'j', 's', 'o', 'n']).getLast? = some 'n' := by
    rw [List.getLast?_append]
    exact rfl
  have hbody : '\n' ∉ a ++ '-' :: 'v' :: 's' :: '-' :: h := by
    intro hmem
    rcases List.mem_append.mp hmem with hmem | hmem
    · exact okChar_ne_newline (haok _ hmem) rfl
    · simp only [List.mem_cons] at hmem
      rcases hmem with h1 | h1 | h1 | h1 | hmem
      · exact absurd h1 (by decide)
      · exact absurd h1 (by decide)
      · exact absurd h1 (by decide)
      · exact absurd h1 (by decide)
      · exact okChar_ne_newline (hhok _ hmem) rfl
  unfold parseGameFilename mkGameName
  dsimp only
  rw [List.head?_reverse]
  rw [show (String.mk (['g', 'a', 'm', 'e', '-'] ++ a ++ ['-', 'v', 's', '-'] ++ h ++ ['-'] ++
      [y1, y2, y3, y4, '-', m1, m2, '-', d1, d2] ++
      ['.', 'j', 's', 'o', 'n'])).toList =
    ['g', 'a', 'm', 'e', '-'] ++ a ++ ['-', 'v', 's', '-'] ++ h ++ ['-'] ++
      [y1, y2, y3, y4, '-', m1, m2, '-', d1, d2] ++ ['.', 'j', 's', 'o', 'n'] from rfl]
  rw [hlast]
  rw [if_neg (by decide)]
  simp only [List.append_assoc, List.cons_append, List.nil_append]
  simp only [List.reverse_append, List.reverse_cons, List.reverse_nil, List.nil_append,
    List.append_assoc, List.cons_append]
  rw [if_pos hd]
  simp only [List.reverse_append, List.reverse_cons, List.reverse_nil, List.nil_append,
    List.append_assoc, List.cons_append, List.reverse_reverse, List.append_nil]
  rw [contains_newline_false hbody]
  rw [if_neg (by simp)]
  rw [splitLastVs0_append a hhne (splitLastVs0_post_none hash hpre)]
  dsimp only
  rw [if_neg hane]

/-- Witness for C9 (amended): a concrete round trip. -/
theorem claim_c9_witness :
    parseGameFilename (mkGameName "alabama".toList "tennessee".toList "2025-09-20".toList) =
      some ("alabama", "tennessee", "2025-09-20") :=
  claim_c9_amended "alabama".toList "tennessee".toList "2025-09-20".toList
    (by decide) (by decide) (by decide) (by decide) (by decide) (by decide)
    (by decide) (by decide)

end BustaBook
